import Mathlib

/-!
# Verification of the kittenbark/config file-backed configuration cache

This file gives a shallow embedding of the core of the `config` package
(`Cache`, `verboseGet`, `UpdateContext`, the generic typed accessor
`GetContext[T]`) and proves the specified properties about it.

Modelling conventions:

* Timestamps and durations (`time.Time`, `time.Duration`) are `Int` ticks;
  Go's `t1.After(t2)` is `t2 < t1`, `time.Since(t) < d` is `now - t < d`,
  and the Go zero `time.Time` is `0`.
* Errors are opaque values (`GoErr := String`) and are propagated unchanged,
  exactly as the source propagates `error` values.
* The file system is an oracle carried in an environment record: `os.Stat`
  is a function from path to `Except GoErr Int` (the modification time) and
  `os.ReadFile` a function from path to `Except GoErr Bytes`.  The clock
  readings the function takes (`time.Since` at the freshness check,
  `time.Now()` just before the read) are environment fields `now` and
  `readTime`.
* `context.Context` cancellation is modelled by the value `ctx.Err()` would
  return at each of the checkpoints where the source consults it.
* The `sync.RWMutex` operations performed by a call are recorded, in
  program order (deferred calls in LIFO order), in a `locks` trace, and the
  file-system operations in an `fsOps` trace.  `lockTraceOk` replays a lock
  trace against Go's RWMutex rules; a trace on which Go's runtime would
  throw (`sync: RUnlock of unlocked RWMutex`, etc.) is rejected.
* Go's dynamic type for the decoded `Value any` slot is modelled by a
  string tag (the runtime type name) together with an allocation identity
  (`Nat`) standing for the pointer `*T`; a failed type assertion
  `cfg.Value.(*T)` is a run-time panic, modelled by the `panicked` outcome.
* `filepath.Join(dir, file)` is modelled as `dir ++ "/" ++ file` (no path
  cleaning; exact for components free of `.`/`..`/separators, which is all
  the claims need).
* Concurrency: `verboseGet` releases the read lock before taking the write
  lock; writes by other goroutines in that window are modelled by an
  arbitrary `interfere : Configs → Configs` applied to the mapping at the
  lock switch.  Sequential executions take `interfere = id`.
-/

abbrev GoErr := String

abbrev Bytes := List Nat

/-- Go's `unicode.IsSpace`, the predicate used by `strings.TrimSpace`:
ASCII whitespace plus the Unicode `White_Space` code points. -/
def goIsSpace (c : Char) : Bool :=
  c = ' ' || c = '\t' || c = '\n' || c.toNat = 0x0b || c.toNat = 0x0c || c = '\r' ||
  c.toNat = 0x85 || c.toNat = 0xA0 || c.toNat = 0x1680 ||
  (0x2000 ≤ c.toNat && c.toNat ≤ 0x200A) ||
  c.toNat = 0x2028 || c.toNat = 0x2029 || c.toNat = 0x202F ||
  c.toNat = 0x205F || c.toNat = 0x3000

/-- Body of `strings.TrimSpace` on the underlying character list: drop leading and
trailing whitespace. -/
def trimSpaceList (l : List Char) : List Char :=
  ((l.dropWhile goIsSpace).reverse.dropWhile goIsSpace).reverse

/-- Go's `strings.TrimSpace`. -/
def trimSpace (s : String) : String :=
  ⟨trimSpaceList s.data⟩

/-- The path `verboseGet` resolves for a name:
`filepath.Join(cache.directory, fmt.Sprintf("%s.json", strings.TrimSpace(name)))`
(source line 123). -/
def getPath (dir name : String) : String :=
  dir ++ "/" ++ (trimSpace name ++ ".json")

/-- The path `Cache.UpdateContext` writes for a name:
`filepath.Join(cache.directory, fmt.Sprintf("%s.json", name))` — note the
name is NOT trimmed here (source line 93). -/
def updatePath (dir name : String) : String :=
  dir ++ "/" ++ (name ++ ".json")

/-- The decoded value stored in the type-erased `Value any` slot: the Go
runtime type name it was decoded as, plus the allocation identity of the
pointer `*T` that was stored. -/
structure DecodedVal where
  tag : String
  ptr : Nat
deriving DecidableEq, Repr

/-- Model of `configValue` (source lines 179-183): one cache entry. -/
structure ConfigValue where
  LastUpdate : Int
  Value : Option DecodedVal
  Raw : Bytes
deriving DecidableEq, Repr

/-- The `configs map[string]*configValue` mapping. -/
abbrev Configs := String → Option ConfigValue

/-- Model of `Cache` (source lines 64-69); the `sync.RWMutex` has no state captured
here, its use is recorded in the lock trace of each operation. -/
structure Cache where
  directory : String
  configs : Configs
  syncTimeout : Int

/-- Go's `time.Minute` in nanosecond ticks. -/
def timeMinute : Int := 60000000000

/-- Model of `NewCache` (source lines 56-62). -/
def NewCache (directory : String) : Cache :=
  { directory := directory, syncTimeout := timeMinute, configs := fun _ => none }

/-- Model of `Cache.SyncTimeout` (source lines 71-74). -/
def Cache.SyncTimeout (cache : Cache) (duration : Int) : Cache :=
  { cache with syncTimeout := duration }

/-- One `sync.RWMutex` operation. -/
inductive LockOp where
  | rlock
  | runlock
  | wlock
  | wunlock
deriving DecidableEq, Repr

/-- Replay one lock operation against an RWMutex state `(readers, writerHeld)`.
`none` is a state on which the Go runtime throws or the single calling
goroutine deadlocks: `RUnlock` with no read lock held is the fatal
`sync: RUnlock of unlocked RWMutex`. -/
def lockStep (s : Nat × Bool) (op : LockOp) : Option (Nat × Bool) :=
  match op with
  | .rlock => if s.2 then none else some (s.1 + 1, s.2)
  | .runlock => match s.1 with
      | 0 => none
      | r + 1 => some (r, s.2)
  | .wlock => if s.2 || s.1 != 0 then none else some (s.1, true)
  | .wunlock => if s.2 then some (s.1, false) else none

/-- A lock trace is legal if it replays from the unlocked state without a
fatal runtime error and ends with the mutex fully released. -/
def lockTraceOk (ops : List LockOp) : Bool :=
  match List.foldlM lockStep ((0 : Nat), false) ops with
  | some (0, false) => true
  | _ => false

/-- One file-system operation performed by a call. -/
inductive FsOp where
  | statOp (path : String)
  | readOp (path : String)
deriving DecidableEq, Repr

/-- The environment of one `verboseGet` call: cancellation state at each
checkpoint, the clock readings, and the file-system oracle. -/
structure Env where
  ctx1 : Option GoErr
  ctx2 : Option GoErr
  now : Int
  readTime : Int
  stat : String → Except GoErr Int
  read : String → Except GoErr Bytes

/-- The full observable outcome of one `verboseGet` call. -/
structure VGOut where
  result : Except GoErr (Option ConfigValue × Bool)
  configs : Configs
  locks : List LockOp
  fsOps : List FsOp

/-- Source lines 148-159: the reload after the re-check under the write
lock failed to find a fresh-enough entry.  Note the read-error branch
(source line 151) registers `defer cache.lock.RUnlock()` while the WRITE
lock is held; together with the `defer cache.lock.Unlock()` from line 137
(deferred calls run in LIFO order) its lock trace ends
`[.wlock, .runlock, .wunlock]`. -/
def verboseGetReload (env : Env) (configs1 : Configs) (name path : String) : VGOut :=
  let loaded := env.readTime
  match env.read path with
  | .error e =>
      { result := .error e, configs := configs1,
        locks := [.rlock, .runlock, .wlock, .runlock, .wunlock],
        fsOps := [.statOp path, .readOp path] }
  | .ok data =>
      let config : ConfigValue := { LastUpdate := loaded, Value := none, Raw := data }
      { result := .ok (some config, true),
        configs := fun n => if n = name then some config else configs1 n,
        locks := [.rlock, .runlock, .wlock, .wunlock],
        fsOps := [.statOp path, .readOp path] }

/-- Source lines 118-159: the part of `verboseGet` after the fast-path
freshness test has failed (`config0` is the entry found under the read
lock, if any; `lastUpdate` is its `LastUpdate`, or the zero time). -/
def verboseGetSlow (env : Env) (interfere : Configs → Configs) (cache : Cache)
    (name : String) (config0 : Option ConfigValue) (lastUpdate : Int) : VGOut :=
  let path := getPath cache.directory name
  match env.stat path with
  | .error e =>
      { result := .error e, configs := cache.configs,
        locks := [.rlock, .runlock], fsOps := [.statOp path] }
  | .ok modTime =>
      if modTime ≤ lastUpdate then
        { result := .ok (config0, false), configs := cache.configs,
          locks := [.rlock, .runlock], fsOps := [.statOp path] }
      else
        let configs1 := interfere cache.configs
        match env.ctx2 with
        | some e =>
            { result := .error e, configs := configs1,
              locks := [.rlock, .runlock, .wlock, .wunlock], fsOps := [.statOp path] }
        | none =>
            match configs1 name with
            | some config1 =>
                if modTime ≤ config1.LastUpdate then
                  { result := .ok (some config1, false), configs := configs1,
                    locks := [.rlock, .runlock, .wlock, .wunlock], fsOps := [.statOp path] }
                else
                  verboseGetReload env configs1 name path
            | none => verboseGetReload env configs1 name path

/-- Model of `Cache.verboseGet` (source lines 105-160). -/
def verboseGet (env : Env) (interfere : Configs → Configs) (cache : Cache)
    (name : String) : VGOut :=
  match env.ctx1 with
  | some e =>
      { result := .error e, configs := cache.configs,
        locks := [.rlock, .runlock], fsOps := [] }
  | none =>
      match cache.configs name with
      | some config =>
          if env.now - config.LastUpdate < cache.syncTimeout then
            { result := .ok (some config, false), configs := cache.configs,
              locks := [.rlock, .runlock], fsOps := [] }
          else
            verboseGetSlow env interfere cache name (some config) config.LastUpdate
      | none => verboseGetSlow env interfere cache name none 0

/-- The file system seen by `update`: path to content. -/
abbrev Fs := String → Option Bytes

/-- Environment of one `Cache.UpdateContext` call: cancellation state and
the outcome of `os.WriteFile`. -/
structure UEnv where
  ctx : Option GoErr
  writeErr : Option GoErr

/-- Observable outcome of `Cache.UpdateContext`. -/
structure UOut where
  result : Except GoErr Unit
  fs : Fs
  configs : Configs

/-- Model of `Cache.UpdateContext` (source lines 87-95): under the write lock, check
cancellation, then write `data` verbatim to `updatePath` — the in-memory
mapping is never touched.  A failed write leaves the model file system
unchanged (the claim only concerns the returned error and the mapping). -/
def UpdateContext (env : UEnv) (fs : Fs) (cache : Cache) (name : String) (data : Bytes) : UOut :=
  match env.ctx with
  | some e => { result := .error e, fs := fs, configs := cache.configs }
  | none =>
      let path := updatePath cache.directory name
      match env.writeErr with
      | some e => { result := .error e, fs := fs, configs := cache.configs }
      | none =>
          { result := .ok (), fs := fun p => if p = path then some data else fs p,
            configs := cache.configs }

/-- Result of a Go function that can also fail by panicking (a failed type
assertion `cfg.Value.(*T)` or a nil-pointer dereference). -/
inductive GoOutcome (α : Type) where
  | ok (a : α)
  | error (e : GoErr)
  | panicked (msg : String)
deriving DecidableEq, Repr

/-- Environment of one typed `GetContext[T]` call: the `verboseGet`
environment, the cancellation state at the checkpoint of line 33, the
outcome `json.Unmarshal` would have for a given target type and raw bytes,
and the allocation identity the fresh `&result` would get. -/
structure TEnv where
  venv : Env
  ctx3 : Option GoErr
  unmarshalErr : String → Bytes → Option GoErr
  freshPtr : Nat

/-- Model of `GetContext[T]` (source lines 22-46), sequential semantics
(`interfere = id`, and the re-read of `cfg.Value` at line 36 sees the value
read at line 28).  `tag` is the runtime type name `*T`.  The type assertion
`cfg.Value.(*T)` (lines 29 and 37) succeeds only when the stored dynamic
type equals `tag`; otherwise it panics with an interface-conversion error.
Setting `cfg.Value = &result` (line 44) mutates the entry in place, i.e.
updates the mapping at `name`. -/
def GetContext (tag : String) (tenv : TEnv) (cache : Cache) (name : String) :
    GoOutcome Nat × Configs :=
  let out := verboseGet tenv.venv id cache name
  match out.result with
  | .error e => (.error e, out.configs)
  | .ok (none, _) => (.panicked "nil pointer dereference", out.configs)
  | .ok (some cfg, updated) =>
      match cfg.Value, updated with
      | some dv, false =>
          if dv.tag = tag then (.ok dv.ptr, out.configs)
          else (.panicked "interface conversion", out.configs)
      | _, _ =>
          match tenv.ctx3 with
          | some e => (.error e, out.configs)
          | none =>
              match cfg.Value, updated with
              | some dv, false =>
                  if dv.tag = tag then (.ok dv.ptr, out.configs)
                  else (.panicked "interface conversion", out.configs)
              | _, _ =>
                  match tenv.unmarshalErr tag cfg.Raw with
                  | some e => (.error e, out.configs)
                  | none =>
                      let dv : DecodedVal := { tag := tag, ptr := tenv.freshPtr }
                      (.ok tenv.freshPtr,
                       fun n => if n = name then some { cfg with Value := some dv } else out.configs n)

/-!
## Interleaving model of the decode double-check

For claim C9 the decode part of `GetContext[T]` (lines 28-45) is modelled
as a state machine over arbitrary interleavings of N concurrent calls, all
for the same type `T`, all of whose `verboseGet` resolutions returned the
same fresh entry (`updated = false`).  Each call contributes two atomic
events: its unlocked fast check of `cfg.Value` (lines 28-30) and, if that
did not return, its section under `cache.lock` (lines 31-45: re-check,
unmarshal, store).  The lock serializes the latter sections, so each is a
single atomic event.  `slot` is the entry's `Value` slot (the allocation
identity of the stored `*T`), `decodes` counts executions of
`json.Unmarshal`, and `ret i` is the pointer call `i` returned.
-/

/-- One atomic event of the interleaved decode protocol. -/
inductive DStep where
  | fastCheck (i : Nat)
  | lockedSection (i : Nat)

/-- Shared state plus per-call results of the interleaved decode protocol. -/
structure DecodeExec where
  slot : Option Nat
  nextPtr : Nat
  decodes : Nat
  ret : Nat → Option Nat

/-- Effect of one event.  A call that already returned at its fast check
does not execute its locked section. -/
def dstep (s : DecodeExec) (step : DStep) : DecodeExec :=
  match step with
  | .fastCheck i =>
      match s.slot with
      | some p => { s with ret := fun j => if j = i then some p else s.ret j }
      | none => s
  | .lockedSection i =>
      if (s.ret i).isSome then s
      else
        match s.slot with
        | some p => { s with ret := fun j => if j = i then some p else s.ret j }
        | none =>
            { slot := some s.nextPtr, nextPtr := s.nextPtr + 1, decodes := s.decodes + 1,
              ret := fun j => if j = i then some s.nextPtr else s.ret j }

/-- Run a whole interleaving. -/
def drun (s : DecodeExec) (steps : List DStep) : DecodeExec :=
  steps.foldl dstep s

/-- Initial state: a fresh entry whose decode slot is still empty, no call
returned yet. -/
def dinit : DecodeExec :=
  { slot := none, nextPtr := 0, decodes := 0, ret := fun _ => none }

/-!
## Repeated sequential gets (claim C8)
-/

/-- Run a sequence of `verboseGet` calls for one name (sequential, so
`interfere = id`), threading the mapping, and collect the `LastUpdate`
values of the entries the successful calls returned. -/
def runGets (name : String) : Cache → List Env → List Int × Configs
  | cache, [] => ([], cache.configs)
  | cache, env :: rest =>
      let out := verboseGet env id cache name
      let tail := runGets name { cache with configs := out.configs } rest
      match out.result with
      | .ok (some cfg, _) => (cfg.LastUpdate :: tail.1, tail.2)
      | _ => tail

/-- The clock readings of a sequence of calls are non-decreasing, starting
no earlier than `c`. -/
def ClockMono : Int → List Env → Prop
  | _, [] => True
  | c, env :: rest => c ≤ env.now ∧ env.now ≤ env.readTime ∧ ClockMono env.readTime rest

/-- The modification times the file system reports (successful stats of
`path`) over a sequence of calls. -/
def statMtimes (path : String) (envs : List Env) : List Int :=
  envs.filterMap fun env =>
    match env.stat path with
    | .ok m => some m
    | .error _ => none

/-- The name has leading or trailing whitespace (in Go's
`unicode.IsSpace` sense). -/
def hasEdgeSpace (name : String) : Prop :=
  (∃ c, name.data.head? = some c ∧ goIsSpace c = true) ∨
  (∃ c, name.data.getLast? = some c ∧ goIsSpace c = true)

/-- Two reloading gets for two names against a fresh cache: the scenario of
claim C10's mapping-key part. -/
def getTwice (dir n1 n2 : String) (env1 env2 : Env) : VGOut × VGOut :=
  let out1 := verboseGet env1 id (NewCache dir) n1
  let out2 := verboseGet env2 id
    { directory := dir, configs := out1.configs, syncTimeout := timeMinute } n2
  (out1, out2)

/-- The `LastUpdate` the slow path remembers before statting: the existing
entry's, or the zero time (source lines 118-121). -/
def lastUpdate0 (cache : Cache) (name : String) : Int :=
  match cache.configs name with
  | some cfg => cfg.LastUpdate
  | none => 0

theorem verboseGet_fast (env : Env) (intf : Configs → Configs) (cache : Cache)
    (name : String) (cfg : ConfigValue) (h1 : env.ctx1 = none)
    (h2 : cache.configs name = some cfg)
    (h3 : env.now - cfg.LastUpdate < cache.syncTimeout) :
    verboseGet env intf cache name =
      { result := .ok (some cfg, false), configs := cache.configs,
        locks := [.rlock, .runlock], fsOps := [] } := by
  simp only [verboseGet, h1, h2]
  rw [if_pos h3]

/-- Claim C4: with an entry for the name whose age is strictly below the
sync timeout (and no cancellation), `verboseGet` returns exactly that entry,
not flagged as reloaded, leaves the mapping unchanged, and performs no
file-system operation. -/
theorem claim_C4 (env : Env) (intf : Configs → Configs) (cache : Cache)
    (name : String) (cfg : ConfigValue) (h1 : env.ctx1 = none)
    (h2 : cache.configs name = some cfg)
    (h3 : env.now - cfg.LastUpdate < cache.syncTimeout) :
    verboseGet env intf cache name =
      { result := .ok (some cfg, false), configs := cache.configs,
        locks := [.rlock, .runlock], fsOps := [] } :=
  verboseGet_fast env intf cache name cfg h1 h2 h3

def envC4 : Env :=
  { ctx1 := none, ctx2 := none, now := 10, readTime := 11,
    stat := fun _ => .error "unused", read := fun _ => .error "unused" }

def cfgC4 : ConfigValue := { LastUpdate := 5, Value := none, Raw := [1, 2] }

def cacheC4 : Cache :=
  { directory := "dir", configs := fun n => if n = "a" then some cfgC4 else none,
    syncTimeout := 60 }

theorem claim_C4_witness :
    verboseGet envC4 id cacheC4 "a" =
      { result := .ok (some cfgC4, false), configs := cacheC4.configs,
        locks := [.rlock, .runlock], fsOps := [] } :=
  claim_C4 envC4 id cacheC4 "a" cfgC4 rfl (by decide) (by decide)

/-- Claim C3: when the freshness window has expired (or no entry exists)
and the stat of `<directory>/<trimmed name>.json` fails, `verboseGet`
returns that I/O error unchanged — even when a stale entry is present it is
not returned in place of the error — and the mapping is unchanged. -/
theorem claim_C3 (env : Env) (intf : Configs → Configs) (cache : Cache)
    (name : String) (e : GoErr) (h1 : env.ctx1 = none)
    (h2 : ∀ cfg, cache.configs name = some cfg →
      cache.syncTimeout ≤ env.now - cfg.LastUpdate)
    (h3 : env.stat (getPath cache.directory name) = .error e) :
    verboseGet env intf cache name =
      { result := .error e, configs := cache.configs,
        locks := [.rlock, .runlock],
        fsOps := [.statOp (getPath cache.directory name)] } := by
  cases hc : cache.configs name with
  | none => simp only [verboseGet, verboseGetSlow, h1, hc, h3]
  | some cfg =>
      have hns : ¬ env.now - cfg.LastUpdate < cache.syncTimeout := by
        have := h2 cfg hc
        omega
      simp only [verboseGet, verboseGetSlow, h1, hc, h3]
      rw [if_neg hns]

def envC3 : Env :=
  { ctx1 := none, ctx2 := none, now := 100, readTime := 101,
    stat := fun _ => .error "stat failed", read := fun _ => .error "unused" }

def cfgC3 : ConfigValue := { LastUpdate := 5, Value := none, Raw := [1, 2] }

def cacheC3 : Cache :=
  { directory := "dir", configs := fun n => if n = "a" then some cfgC3 else none,
    syncTimeout := 60 }

theorem claim_C3_witness :
    verboseGet envC3 id cacheC3 "a" =
      { result := .error "stat failed", configs := cacheC3.configs,
        locks := [.rlock, .runlock],
        fsOps := [.statOp (getPath "dir" "a")] } :=
  claim_C3 envC3 id cacheC3 "a" "stat failed" rfl
    (by
      intro cfg hcfg
      injection (show some cfgC3 = some cfg from hcfg) with h
      subst h
      decide)
    rfl

/-- Claim C5: entry present but its freshness window expired; the stat
succeeds and the modification time is not newer than the entry's
`LastUpdate`: `verboseGet` performs the stat but no read and returns the
cached entry unchanged (raw bytes and `LastUpdate` intact), not flagged as
reloaded, with the mapping unchanged. -/
theorem claim_C5 (env : Env) (intf : Configs → Configs) (cache : Cache)
    (name : String) (cfg : ConfigValue) (m : Int) (h1 : env.ctx1 = none)
    (h2 : cache.configs name = some cfg)
    (h3 : cache.syncTimeout ≤ env.now - cfg.LastUpdate)
    (h4 : env.stat (getPath cache.directory name) = .ok m)
    (h5 : m ≤ cfg.LastUpdate) :
    verboseGet env intf cache name =
      { result := .ok (some cfg, false), configs := cache.configs,
        locks := [.rlock, .runlock],
        fsOps := [.statOp (getPath cache.directory name)] } := by
  have hns : ¬ env.now - cfg.LastUpdate < cache.syncTimeout := by omega
  simp only [verboseGet, h1, h2]
  rw [if_neg hns]
  simp only [verboseGetSlow, h4]
  rw [if_pos h5]

def envC5 : Env :=
  { ctx1 := none, ctx2 := none, now := 100, readTime := 101,
    stat := fun _ => .ok 4, read := fun _ => .error "unused" }

def cfgC5 : ConfigValue := { LastUpdate := 5, Value := none, Raw := [3, 4] }

def cacheC5 : Cache :=
  { directory := "dir", configs := fun n => if n = "a" then some cfgC5 else none,
    syncTimeout := 60 }

theorem claim_C5_witness :
    verboseGet envC5 id cacheC5 "a" =
      { result := .ok (some cfgC5, false), configs := cacheC5.configs,
        locks := [.rlock, .runlock],
        fsOps := [.statOp (getPath "dir" "a")] } :=
  claim_C5 envC5 id cacheC5 "a" cfgC5 4 rfl (by decide) (by decide) rfl (by decide)

/-- Claim C6: on the slow path, past the stat (successful, modification
time newer than the remembered `LastUpdate`) and into the write-locked
section.  First conjunct: if the mapping (possibly changed by concurrent
callers while the read lock was released, modelled by `intf`) now holds an
entry at least as fresh as the modification time, that entry is returned,
not flagged, without a read.  Second conjunct: otherwise the file is read
and a new entry with `LastUpdate = readTime` and `Raw = contents` replaces
any prior entry for the name and is returned flagged as freshly reloaded. -/
theorem claim_C6 (env : Env) (intf : Configs → Configs) (cache : Cache)
    (name : String) (m : Int) (h1 : env.ctx1 = none) (h2 : env.ctx2 = none)
    (hstale : ∀ cfg, cache.configs name = some cfg →
      cache.syncTimeout ≤ env.now - cfg.LastUpdate)
    (hstat : env.stat (getPath cache.directory name) = .ok m)
    (hnew : lastUpdate0 cache name < m) :
    (∀ cfg1, intf cache.configs name = some cfg1 → m ≤ cfg1.LastUpdate →
        verboseGet env intf cache name =
          { result := .ok (some cfg1, false), configs := intf cache.configs,
            locks := [.rlock, .runlock, .wlock, .wunlock],
            fsOps := [.statOp (getPath cache.directory name)] }) ∧
    (∀ data, env.read (getPath cache.directory name) = .ok data →
        (∀ cfg1, intf cache.configs name = some cfg1 → cfg1.LastUpdate < m) →
        verboseGet env intf cache name =
          { result := .ok (some { LastUpdate := env.readTime, Value := none, Raw := data }, true),
            configs := fun n =>
              if n = name then some { LastUpdate := env.readTime, Value := none, Raw := data }
              else intf cache.configs n,
            locks := [.rlock, .runlock, .wlock, .wunlock],
            fsOps := [.statOp (getPath cache.directory name),
                      .readOp (getPath cache.directory name)] }) := by
  have hslow : verboseGet env intf cache name =
      verboseGetSlow env intf cache name (cache.configs name) (lastUpdate0 cache name) := by
    cases hc : cache.configs name with
    | none => simp only [verboseGet, h1, hc, lastUpdate0]
    | some cfg =>
        have hns : ¬ env.now - cfg.LastUpdate < cache.syncTimeout := by
          have := hstale cfg hc
          omega
        simp only [verboseGet, h1, hc, lastUpdate0]
        rw [if_neg hns]
  have hnm : ¬ m ≤ lastUpdate0 cache name := by omega
  constructor
  · intro cfg1 hcfg1 hm
    rw [hslow]
    simp only [verboseGetSlow, hstat, h2, hcfg1]
    rw [if_neg hnm, if_pos hm]
  · intro data hread hmiss
    rw [hslow]
    simp only [verboseGetSlow, hstat, h2]
    rw [if_neg hnm]
    cases hcl : intf cache.configs name with
    | none => simp only [verboseGetReload, hread]
    | some cfg1 =>
        have hlt : ¬ m ≤ cfg1.LastUpdate := by
          have := hmiss cfg1 hcl
          omega
        simp only [if_neg hlt, verboseGetReload, hread]

def envC6 : Env :=
  { ctx1 := none, ctx2 := none, now := 100, readTime := 101,
    stat := fun _ => .ok 50, read := fun _ => .ok [9] }

def cfgC6 : ConfigValue := { LastUpdate := 5, Value := none, Raw := [3, 4] }

def cacheC6 : Cache :=
  { directory := "dir", configs := fun n => if n = "a" then some cfgC6 else none,
    syncTimeout := 60 }

/-- An entry a concurrent reloader could have installed while the read lock
was released: at least as fresh as the statted modification time 50. -/
def cfgC6fresh : ConfigValue := { LastUpdate := 70, Value := none, Raw := [8] }

def intfC6 : Configs → Configs :=
  fun c => fun n => if n = "a" then some cfgC6fresh else c n

theorem claim_C6_witness :
    (verboseGet envC6 intfC6 cacheC6 "a").result = .ok (some cfgC6fresh, false) ∧
    (verboseGet envC6 intfC6 cacheC6 "a").fsOps = [.statOp (getPath "dir" "a")] ∧
    (verboseGet envC6 id cacheC6 "a").result =
      .ok (some { LastUpdate := 101, Value := none, Raw := [9] }, true) ∧
    (verboseGet envC6 id cacheC6 "a").configs "a" =
      some { LastUpdate := 101, Value := none, Raw := [9] } ∧
    (verboseGet envC6 id cacheC6 "a").fsOps =
      [.statOp (getPath "dir" "a"), .readOp (getPath "dir" "a")] := by
  have hstale : ∀ cfg, cacheC6.configs "a" = some cfg →
      cacheC6.syncTimeout ≤ envC6.now - cfg.LastUpdate := by
    intro cfg hcfg
    injection (show some cfgC6 = some cfg from hcfg) with h
    subst h
    decide
  have hpart1 := (claim_C6 envC6 intfC6 cacheC6 "a" 50 rfl rfl hstale rfl
    (by decide)).1 cfgC6fresh (by decide) (by decide)
  have hpart2 := (claim_C6 envC6 id cacheC6 "a" 50 rfl rfl hstale rfl
    (by decide)).2 [9] rfl
    (by
      intro cfg hcfg
      injection (show some cfgC6 = some cfg from hcfg) with h
      subst h
      decide)
  refine ⟨by rw [hpart1], by rw [hpart1]; exact rfl, by rw [hpart2]; exact rfl,
    by rw [hpart2]; exact rfl, by rw [hpart2]; exact rfl⟩

/-- The concrete failing input for claim C2: a stale entry (loaded at time
0, sync timeout 60, current time 100), a successful stat reporting a newer
modification time 50, and a read that fails (e.g. the file was removed
between the stat and the read). -/
def cacheC2 : Cache :=
  { directory := "d",
    configs := fun n => if n = "cfg" then some { LastUpdate := 0, Value := none, Raw := [7] } else none,
    syncTimeout := 60 }

def envC2 : Env :=
  { ctx1 := none, ctx2 := none, now := 100, readTime := 101,
    stat := fun _ => .ok 50, read := fun _ => .error "read failed" }

/-- Claim C2 (code bug): on the slow path, when the full-file read fails,
the function-level return value is indeed the underlying I/O error
unchanged — but the branch is NOT safe to execute: it registers
`defer cache.lock.RUnlock()` (source line 151) while the write lock from
line 136 is held, so the deferred calls run `RUnlock` then `Unlock` on a
write-locked mutex with no read lock held.  The resulting lock trace is
illegal (`lockTraceOk = false`): Go's runtime aborts with the fatal error
`sync: RUnlock of unlocked RWMutex` before the caller can observe the
returned error. -/
theorem claim_C2_bug :
    verboseGet envC2 id cacheC2 "cfg" =
      { result := .error "read failed", configs := cacheC2.configs,
        locks := [.rlock, .runlock, .wlock, .runlock, .wunlock],
        fsOps := [.statOp (getPath "d" "cfg"), .readOp (getPath "d" "cfg")] } ∧
    lockTraceOk [.rlock, .runlock, .wlock, .runlock, .wunlock] = false :=
  ⟨rfl, rfl⟩

/-- Claim C7: a successful `update(name, rawBytes)` writes `rawBytes`
verbatim to `<directory>/<name>.json` (overwriting whatever was there) and
leaves the in-memory mapping completely unchanged; a failed write returns
the I/O error unchanged and also leaves the mapping unchanged. -/
theorem claim_C7 (env : UEnv) (fs : Fs) (cache : Cache) (name : String)
    (data : Bytes) (h : env.ctx = none) :
    (env.writeErr = none →
        UpdateContext env fs cache name data =
          { result := .ok (),
            fs := fun p => if p = updatePath cache.directory name then some data else fs p,
            configs := cache.configs }) ∧
    (∀ e, env.writeErr = some e →
        UpdateContext env fs cache name data =
          { result := .error e, fs := fs, configs := cache.configs }) := by
  constructor
  · intro hw
    simp only [UpdateContext, h, hw]
  · intro e hw
    simp only [UpdateContext, h, hw]

def uenvC7 : UEnv := { ctx := none, writeErr := none }

/-- A file system that already holds content `[5]` at the target path, to
be overwritten. -/
def fsC7 : Fs := fun p => if p = updatePath "dir" "n" then some [5] else none

def cfgC7 : ConfigValue := { LastUpdate := 1, Value := none, Raw := [2] }

def cacheC7 : Cache :=
  { directory := "dir", configs := fun n => if n = "x" then some cfgC7 else none,
    syncTimeout := 60 }

theorem claim_C7_witness :
    (UpdateContext uenvC7 fsC7 cacheC7 "n" [1, 2]).result = .ok () ∧
    (UpdateContext uenvC7 fsC7 cacheC7 "n" [1, 2]).fs (updatePath "dir" "n") = some [1, 2] ∧
    (UpdateContext uenvC7 fsC7 cacheC7 "n" [1, 2]).configs = cacheC7.configs := by
  have h := (claim_C7 uenvC7 fsC7 cacheC7 "n" [1, 2] rfl).1 rfl
  refine ⟨by rw [h], by rw [h]; exact rfl, by rw [h]⟩

/-- The concrete state for claim C1: a fresh entry for name `x` whose
decode slot was already filled by a successful typed get as type `A`
(runtime type tag `"A"`, stored pointer 7). -/
def cfgC1 : ConfigValue :=
  { LastUpdate := 0, Value := some { tag := "A", ptr := 7 }, Raw := [1] }

def cacheC1 : Cache :=
  { directory := "d", configs := fun n => if n = "x" then some cfgC1 else none,
    syncTimeout := 60 }

def tenvC1 : TEnv :=
  { venv := { ctx1 := none, ctx2 := none, now := 0, readTime := 1,
              stat := fun _ => .error "unused", read := fun _ => .error "unused" },
    ctx3 := none, unmarshalErr := fun _ _ => none, freshPtr := 0 }

/-- Claim C1 is FALSE as stated: with the entry already decoded as type `A`
(pointer 7 stored in the slot) and no intervening reload, a typed get of the
same name as type `B` does not return a `DecodeError` — the unchecked type
assertion `cfg.Value.(*T)` (source line 29) PANICS with an
interface-conversion error. -/
theorem claim_C1_counterexample :
    (GetContext "B" tenvC1 cacheC1 "x").1 = .panicked "interface conversion" := rfl

/-- Claim C1 (amended): after a typed get of `name` as type `A` succeeded
against an entry (its decode slot holds a value tagged `A`), a typed get of
the same name as a different type `B` against that same entry generation
(entry still fresh, so no reload intervenes) panics with an
interface-conversion error — it never returns a wrongly-typed pointer, but
it also never returns a `DecodeError`. -/
theorem claim_C1 (tenv : TEnv) (cache : Cache) (name : String)
    (cfg : ConfigValue) (tA tB : String) (p : Nat)
    (h1 : tenv.venv.ctx1 = none)
    (h2 : cache.configs name = some cfg)
    (h3 : tenv.venv.now - cfg.LastUpdate < cache.syncTimeout)
    (h4 : cfg.Value = some { tag := tA, ptr := p })
    (h5 : tB ≠ tA) :
    GetContext tB tenv cache name = (.panicked "interface conversion", cache.configs) := by
  have hfast := verboseGet_fast tenv.venv id cache name cfg h1 h2 h3
  have hne : ¬ (DecodedVal.tag { tag := tA, ptr := p } = tB) := by
    simp only [DecodedVal.tag]
    exact fun h => h5 h.symm
  simp only [GetContext, hfast, h4]
  rw [if_neg hne]

theorem claim_C1_witness :
    GetContext "B" tenvC1 cacheC1 "x" = (.panicked "interface conversion", cacheC1.configs) :=
  claim_C1 tenvC1 cacheC1 "x" cfgC1 "A" "B" 7 rfl (by decide) (by decide) (by decide)
    (by decide)

theorem trimSpaceList_eq_rdropWhile (l : List Char) :
    trimSpaceList l = List.rdropWhile goIsSpace (l.dropWhile goIsSpace) := by
  simp [trimSpaceList, List.rdropWhile]

theorem trimSpaceList_length_le (l : List Char) :
    (trimSpaceList l).length ≤ l.length := by
  rw [trimSpaceList_eq_rdropWhile]
  have hpre := List.rdropWhile_prefix goIsSpace (l.dropWhile goIsSpace)
  exact le_trans hpre.length_le (List.dropWhile_suffix goIsSpace).length_le

theorem trimSpaceList_length_lt_of_head (l : List Char) (c : Char)
    (hh : l.head? = some c) (hc : goIsSpace c = true) :
    (trimSpaceList l).length < l.length := by
  cases l with
  | nil => simp at hh
  | cons a as =>
      have ha : a = c := by
        injection (show some a = some c from hh)
      subst ha
      rw [trimSpaceList_eq_rdropWhile]
      have hdrop : List.dropWhile goIsSpace (a :: as) = List.dropWhile goIsSpace as := by
        rw [List.dropWhile_cons_of_pos hc]
      rw [hdrop]
      have hpre := List.rdropWhile_prefix goIsSpace (List.dropWhile goIsSpace as)
      have h1 : (List.rdropWhile goIsSpace (List.dropWhile goIsSpace as)).length ≤
          (List.dropWhile goIsSpace as).length := hpre.length_le
      have h2 : (List.dropWhile goIsSpace as).length ≤ as.length :=
        (List.dropWhile_suffix goIsSpace).length_le
      simp only [List.length_cons]
      omega

theorem trimSpaceList_length_lt_of_getLast (l : List Char) (c : Char)
    (hh : l.getLast? = some c) (hc : goIsSpace c = true) :
    (trimSpaceList l).length < l.length := by
  have hlnil : l ≠ [] := by
    intro h
    subst h
    simp at hh
  have hlen : 0 < l.length := List.length_pos.mpr hlnil
  rw [trimSpaceList_eq_rdropWhile]
  by_cases hdn : List.dropWhile goIsSpace l = []
  · rw [hdn]
    simpa using hlen
  · have hsuf : List.dropWhile goIsSpace l <:+ l := List.dropWhile_suffix goIsSpace
    obtain ⟨t, ht⟩ := hsuf
    have hgl : (List.dropWhile goIsSpace l).getLast? = some c := by
      rw [← hh]
      conv_rhs => rw [← ht]
      rw [List.getLast?_append]
      cases hgd : (List.dropWhile goIsSpace l).getLast? with
      | none => exact absurd (List.getLast?_eq_none_iff.mp hgd) hdn
      | some x => simp
    have hlast : (List.dropWhile goIsSpace l).getLast hdn = c := by
      have := List.getLast?_eq_getLast (List.dropWhile goIsSpace l) hdn
      rw [this] at hgl
      injection hgl
    have hsplit : List.dropWhile goIsSpace l =
        (List.dropWhile goIsSpace l).dropLast ++ [c] := by
      conv_lhs => rw [← List.dropLast_append_getLast hdn]
      rw [hlast]
    rw [hsplit, List.rdropWhile_concat_pos goIsSpace _ c hc]
    have hpre := List.rdropWhile_prefix goIsSpace (List.dropWhile goIsSpace l).dropLast
    have h1 : (List.rdropWhile goIsSpace (List.dropWhile goIsSpace l).dropLast).length ≤
        (List.dropWhile goIsSpace l).dropLast.length := hpre.length_le
    have h2 : (List.dropWhile goIsSpace l).length ≤ l.length :=
      (List.dropWhile_suffix goIsSpace).length_le
    have h3 : 0 < (List.dropWhile goIsSpace l).length := List.length_pos.mpr hdn
    have h4 : (List.dropWhile goIsSpace l).dropLast.length =
        (List.dropWhile goIsSpace l).length - 1 := List.length_dropLast _
    omega

theorem trimSpace_length_lt (name : String) (h : hasEdgeSpace name) :
    (trimSpace name).length < name.length := by
  have heq : (trimSpace name).length = (trimSpaceList name.data).length := rfl
  have heq2 : name.length = name.data.length := rfl
  rw [heq, heq2]
  cases h with
  | inl h =>
      obtain ⟨c, hh, hc⟩ := h
      exact trimSpaceList_length_lt_of_head name.data c hh hc
  | inr h =>
      obtain ⟨c, hh, hc⟩ := h
      exact trimSpaceList_length_lt_of_getLast name.data c hh hc

theorem getPath_ne_updatePath (dir name : String) (h : hasEdgeSpace name) :
    getPath dir name ≠ updatePath dir name := by
  intro heq
  have hlen : (getPath dir name).length = (updatePath dir name).length := by rw [heq]
  have ht := trimSpace_length_lt name h
  simp only [getPath, updatePath, String.length_append] at hlen
  omega

/-- The case of the slow path in which no entry exists for the name (under
either lock) and the file is read fresh. -/
theorem verboseGet_absent_reload (env : Env) (intf : Configs → Configs) (cache : Cache)
    (name : String) (m : Int) (data : Bytes)
    (h1 : env.ctx1 = none) (h2 : env.ctx2 = none)
    (hc : cache.configs name = none)
    (hstat : env.stat (getPath cache.directory name) = .ok m) (hm : 0 < m)
    (hintf : intf cache.configs name = none)
    (hread : env.read (getPath cache.directory name) = .ok data) :
    verboseGet env intf cache name =
      { result := .ok (some { LastUpdate := env.readTime, Value := none, Raw := data }, true),
        configs := fun n =>
          if n = name then some { LastUpdate := env.readTime, Value := none, Raw := data }
          else intf cache.configs n,
        locks := [.rlock, .runlock, .wlock, .wunlock],
        fsOps := [.statOp (getPath cache.directory name),
                  .readOp (getPath cache.directory name)] } := by
  have hnm : ¬ m ≤ (0 : Int) := by omega
  simp only [verboseGet, h1, hc, verboseGetSlow, hstat]
  rw [if_neg hnm]
  simp only [h2, hintf, verboseGetReload, hread]

/-- Claim C10: the trimming asymmetry.  First conjunct: a name with leading
or trailing whitespace is resolved by `get` at a different path than the
one `update` writes.  Second conjunct: the mapping is keyed by the
untrimmed name — two distinct names that trim to the same string are both
resolved against the same backing file, yet a get of each installs its own
separate entry in the mapping. -/
theorem claim_C10 :
    (∀ dir name, hasEdgeSpace name → getPath dir name ≠ updatePath dir name) ∧
    (∀ dir n1 n2 env1 env2 m1 m2 data1 data2,
      n1 ≠ n2 → trimSpace n1 = trimSpace n2 →
      env1.ctx1 = none → env1.ctx2 = none →
      env1.stat (getPath dir n1) = .ok m1 → 0 < m1 →
      env1.read (getPath dir n1) = .ok data1 →
      env2.ctx1 = none → env2.ctx2 = none →
      env2.stat (getPath dir n1) = .ok m2 → 0 < m2 →
      env2.read (getPath dir n1) = .ok data2 →
      getPath dir n2 = getPath dir n1 ∧
      (getTwice dir n1 n2 env1 env2).1.fsOps =
        [.statOp (getPath dir n1), .readOp (getPath dir n1)] ∧
      (getTwice dir n1 n2 env1 env2).2.fsOps =
        [.statOp (getPath dir n1), .readOp (getPath dir n1)] ∧
      (getTwice dir n1 n2 env1 env2).2.configs n1 =
        some { LastUpdate := env1.readTime, Value := none, Raw := data1 } ∧
      (getTwice dir n1 n2 env1 env2).2.configs n2 =
        some { LastUpdate := env2.readTime, Value := none, Raw := data2 }) := by
  constructor
  · exact getPath_ne_updatePath
  · intro dir n1 n2 env1 env2 m1 m2 data1 data2 hn ht h11 h12 hstat1 hm1 hread1
      h21 h22 hstat2 hm2 hread2
    have hpath : getPath dir n2 = getPath dir n1 := by
      simp only [getPath, ht]
    have hn2 : n2 ≠ n1 := fun h => hn h.symm
    have hout1 := verboseGet_absent_reload env1 id (NewCache dir) n1 m1 data1
      h11 h12 rfl hstat1 hm1 rfl hread1
    have hstat2b : env2.stat (getPath dir n2) = .ok m2 := by
      rw [hpath]
      exact hstat2
    have hread2b : env2.read (getPath dir n2) = .ok data2 := by
      rw [hpath]
      exact hread2
    have hc2 : (fun n =>
        if n = n1 then some { LastUpdate := env1.readTime, Value := none, Raw := data1 }
        else id (NewCache dir).configs n) n2 = none := by
      simp [if_neg hn2, NewCache]
    have hout2 := verboseGet_absent_reload env2 id
      { directory := dir,
        configs := fun n =>
          if n = n1 then some { LastUpdate := env1.readTime, Value := none, Raw := data1 }
          else id (NewCache dir).configs n,
        syncTimeout := timeMinute }
      n2 m2 data2 h21 h22 hc2 hstat2b hm2 hc2 hread2b
    refine ⟨hpath, ?_, ?_, ?_, ?_⟩
    · simp only [getTwice, hout1]
      rfl
    · simp only [getTwice, hout1]
      rw [hout2]
      simp [hpath]
    · simp only [getTwice, hout1]
      rw [hout2]
      simp [if_neg hn, if_neg hn2]
    · simp only [getTwice, hout1]
      rw [hout2]
      simp

def envC10a : Env :=
  { ctx1 := none, ctx2 := none, now := 0, readTime := 3,
    stat := fun _ => .ok 5, read := fun _ => .ok [1] }

def envC10b : Env :=
  { ctx1 := none, ctx2 := none, now := 0, readTime := 4,
    stat := fun _ => .ok 6, read := fun _ => .ok [2] }

theorem claim_C10_witness :
    getPath "d" " a" ≠ updatePath "d" " a" ∧
    getPath "d" "a " = getPath "d" " a" ∧
    (getTwice "d" " a" "a " envC10a envC10b).2.configs " a" =
      some { LastUpdate := 3, Value := none, Raw := [1] } ∧
    (getTwice "d" " a" "a " envC10a envC10b).2.configs "a " =
      some { LastUpdate := 4, Value := none, Raw := [2] } := by
  have hb := claim_C10.2 "d" " a" "a " envC10a envC10b 5 6 [1] [2]
    (by decide) (by decide) rfl rfl rfl (by decide) rfl rfl rfl rfl (by decide) rfl
  refine ⟨claim_C10.1 "d" " a" (Or.inl ⟨' ', by decide, by decide⟩), hb.1,
    ?_, ?_⟩
  · rw [hb.2.2.2.1]
    exact rfl
  · rw [hb.2.2.2.2]
    exact rfl

/-- Invariant of the interleaved decode protocol: while the slot is empty
nothing has been decoded and nobody has returned; once the slot holds `p`,
at most one decode has run and every returned pointer is `p` (the slot is
written at most once, since only an empty slot is ever filled). -/
def DInv (s : DecodeExec) : Prop :=
  (s.slot = none → s.decodes = 0 ∧ ∀ i, s.ret i = none) ∧
  (∀ p, s.slot = some p → s.decodes ≤ 1 ∧ ∀ i q, s.ret i = some q → q = p)

theorem dstep_inv (s : DecodeExec) (st : DStep) (hs : DInv s) : DInv (dstep s st) := by
  obtain ⟨hnone, hsome⟩ := hs
  have upd : ∀ (i p : Nat), s.slot = some p → s.decodes ≤ 1 →
      DInv { s with ret := fun j => if j = i then some p else s.ret j } := by
    intro i p hslot hd
    constructor
    · intro h
      have h2 : s.slot = none := h
      rw [hslot] at h2
      cases h2
    · intro p1 hp1
      have hp2 : s.slot = some p1 := hp1
      rw [hslot] at hp2
      injection hp2 with hp2
      subst hp2
      refine ⟨hd, ?_⟩
      intro j q hq
      have hq2 : (if j = i then some p else s.ret j) = some q := hq
      by_cases hj : j = i
      · rw [if_pos hj] at hq2
        injection hq2 with hq2
        exact hq2.symm
      · rw [if_neg hj] at hq2
        exact (hsome p hslot).2 j q hq2
  cases st with
  | fastCheck i =>
      cases hslot : s.slot with
      | none =>
          have heq : dstep s (.fastCheck i) = s := by
            simp only [dstep, hslot]
          rw [heq]
          exact ⟨hnone, hsome⟩
      | some p =>
          have heq : dstep s (.fastCheck i) =
              { s with ret := fun j => if j = i then some p else s.ret j } := by
            simp only [dstep, hslot]
          rw [heq]
          exact upd i p hslot (hsome p hslot).1
  | lockedSection i =>
      by_cases hret : (s.ret i).isSome
      · have heq : dstep s (.lockedSection i) = s := by
          simp only [dstep, if_pos hret]
        rw [heq]
        exact ⟨hnone, hsome⟩
      · cases hslot : s.slot with
        | some p =>
            have heq : dstep s (.lockedSection i) =
                { s with ret := fun j => if j = i then some p else s.ret j } := by
              simp only [dstep, if_neg hret, hslot]
            rw [heq]
            exact upd i p hslot (hsome p hslot).1
        | none =>
            have heq : dstep s (.lockedSection i) =
                { slot := some s.nextPtr, nextPtr := s.nextPtr + 1,
                  decodes := s.decodes + 1,
                  ret := fun j => if j = i then some s.nextPtr else s.ret j } := by
              simp only [dstep, if_neg hret, hslot]
            rw [heq]
            have hd0 : s.decodes = 0 := (hnone hslot).1
            constructor
            · intro h
              have h2 : some s.nextPtr = none := h
              cases h2
            · intro p1 hp1
              have hp2 : some s.nextPtr = some p1 := hp1
              injection hp2 with hp2
              subst hp2
              constructor
              · show s.decodes + 1 ≤ 1
                omega
              · intro j q hq
                have hq2 : (if j = i then some s.nextPtr else s.ret j) = some q := hq
                by_cases hj : j = i
                · rw [if_pos hj] at hq2
                  injection hq2 with hq2
                  exact hq2.symm
                · rw [if_neg hj] at hq2
                  rw [(hnone hslot).2 j] at hq2
                  cases hq2

theorem drun_inv (steps : List DStep) : ∀ s, DInv s → DInv (drun s steps) := by
  induction steps with
  | nil =>
      intro s hs
      exact hs
  | cons st rest ih =>
      intro s hs
      exact ih (dstep s st) (dstep_inv s st hs)

/-- Claim C9: over any interleaving of concurrent typed-get calls against
one fresh entry (same type, `updated = false` for all of them, modelled by
`drun` from `dinit`), `json.Unmarshal` runs at most once, and all calls
that returned got equal pointers (the single decoded instance stored in the
entry's slot). -/
theorem claim_C9 (steps : List DStep) :
    (drun dinit steps).decodes ≤ 1 ∧
    (∀ i j p q, (drun dinit steps).ret i = some p →
      (drun dinit steps).ret j = some q → p = q) := by
  have hinit : DInv dinit := by
    constructor
    · intro _
      exact ⟨rfl, fun _ => rfl⟩
    · intro p hp
      cases hp
  obtain ⟨hnone, hsome⟩ := drun_inv steps dinit hinit
  cases hslot : (drun dinit steps).slot with
  | none =>
      obtain ⟨hd, hr⟩ := hnone hslot
      refine ⟨by omega, ?_⟩
      intro i j p q hp _
      rw [hr i] at hp
      cases hp
  | some p0 =>
      obtain ⟨hd, hr⟩ := hsome p0 hslot
      refine ⟨hd, ?_⟩
      intro i j p q hp hq
      rw [hr i p hp, hr j q hq]

def c9steps : List DStep :=
  [.fastCheck 0, .fastCheck 1, .lockedSection 0, .lockedSection 1]

theorem claim_C9_witness :
    (drun dinit c9steps).decodes ≤ 1 ∧
    (drun dinit c9steps).ret 0 = some 0 ∧
    (drun dinit c9steps).ret 1 = some 0 ∧
    (0 : Nat) = 0 :=
  ⟨(claim_C9 c9steps).1, by decide, by decide,
   (claim_C9 c9steps).2 0 1 0 0 (by decide) (by decide)⟩

/-- The facts about one sequential `verboseGet` call that drive freshness
monotonicity: (1) every entry stored for the name after the call is no
newer than the call's read-time clock; (2) a successful call returns
exactly the entry stored for the name after the call, and that entry is at
least as fresh as whatever was stored before; (3) an entry stored before
the call never disappears and never gets older. -/
def MonoOut (cache : Cache) (name : String) (env : Env) (out : VGOut) : Prop :=
  (∀ cfg1, out.configs name = some cfg1 → cfg1.LastUpdate ≤ env.readTime) ∧
  (∀ cfg u, out.result = .ok (some cfg, u) → out.configs name = some cfg ∧
    ∀ cfg0, cache.configs name = some cfg0 → cfg0.LastUpdate ≤ cfg.LastUpdate) ∧
  (∀ cfg0, cache.configs name = some cfg0 → ∃ cfg1, out.configs name = some cfg1 ∧
    cfg0.LastUpdate ≤ cfg1.LastUpdate)

theorem monoOut_keep (cache : Cache) (name : String) (env : Env)
    (res : Except GoErr (Option ConfigValue × Bool)) (locks : List LockOp)
    (fsOps : List FsOp)
    (hb2 : ∀ cfg, cache.configs name = some cfg → cfg.LastUpdate ≤ env.now)
    (hrt : env.now ≤ env.readTime)
    (hres : ∀ cfg u, res = Except.ok (some cfg, u) → cache.configs name = some cfg) :
    MonoOut cache name env
      { result := res, configs := cache.configs, locks := locks, fsOps := fsOps } := by
  refine ⟨?_, ?_, ?_⟩
  · intro cfg1 h1
    exact le_trans (hb2 cfg1 h1) hrt
  · intro cfg u hres2
    have hc := hres cfg u hres2
    refine ⟨hc, ?_⟩
    intro cfg0 h0
    rw [h0] at hc
    injection hc with hc
    rw [hc]
  · intro cfg0 h0
    exact ⟨cfg0, h0, le_refl _⟩

theorem verboseGetReload_mono (env : Env) (cache : Cache) (name : String)
    (hb2 : ∀ cfg, cache.configs name = some cfg → cfg.LastUpdate ≤ env.now)
    (hrt : env.now ≤ env.readTime) :
    MonoOut cache name env
      (verboseGetReload env cache.configs name (getPath cache.directory name)) := by
  cases hread : env.read (getPath cache.directory name) with
  | error e =>
      simp only [verboseGetReload, hread]
      exact monoOut_keep cache name env _ _ _ hb2 hrt (fun cfg u h => by simp at h)
  | ok data =>
      simp only [verboseGetReload, hread]
      refine ⟨?_, ?_, ?_⟩
      · intro cfg1 h1
        have h2 : (if name = name then
            some { LastUpdate := env.readTime, Value := none, Raw := data }
            else cache.configs name) = some cfg1 := h1
        rw [if_pos rfl] at h2
        injection h2 with h2
        rw [← h2]
      · intro cfg u h
        have h2 : (Except.ok
            (some { LastUpdate := env.readTime, Value := none, Raw := data }, true) :
            Except GoErr (Option ConfigValue × Bool)) =
            Except.ok (some cfg, u) := h
        injection h2 with h3
        injection h3 with h4 h5
        constructor
        · show (if name = name then
              some { LastUpdate := env.readTime, Value := none, Raw := data }
              else cache.configs name) = some cfg
          rw [if_pos rfl]
          rw [h4]
        · intro cfg0 h0
          injection h4 with h6
          rw [← h6]
          exact le_trans (hb2 cfg0 h0) hrt
      · intro cfg0 h0
        refine ⟨{ LastUpdate := env.readTime, Value := none, Raw := data }, ?_, ?_⟩
        · show (if name = name then
              some { LastUpdate := env.readTime, Value := none, Raw := data }
              else cache.configs name) = _
          rw [if_pos rfl]
        · exact le_trans (hb2 cfg0 h0) hrt

theorem verboseGetSlow_mono (env : Env) (cache : Cache) (name : String)
    (config0 : Option ConfigValue) (lastUpdate : Int)
    (hb2 : ∀ cfg, cache.configs name = some cfg → cfg.LastUpdate ≤ env.now)
    (hrt : env.now ≤ env.readTime)
    (hc0 : ∀ cfg, config0 = some cfg → cache.configs name = some cfg) :
    MonoOut cache name env (verboseGetSlow env id cache name config0 lastUpdate) := by
  cases hstat : env.stat (getPath cache.directory name) with
  | error e =>
      simp only [verboseGetSlow, hstat]
      exact monoOut_keep cache name env _ _ _ hb2 hrt (fun cfg u h => by simp at h)
  | ok m =>
      simp only [verboseGetSlow, hstat]
      by_cases hml : m ≤ lastUpdate
      · rw [if_pos hml]
        refine monoOut_keep cache name env _ _ _ hb2 hrt ?_
        intro cfg u h
        injection h with h2
        injection h2 with h3 h4
        exact hc0 cfg h3
      · rw [if_neg hml]
        simp only [id_eq]
        cases hctx2 : env.ctx2 with
        | some e =>
            exact monoOut_keep cache name env _ _ _ hb2 hrt (fun cfg u h => by simp at h)
        | none =>
            cases hcl : cache.configs name with
            | some cfg1 =>
                by_cases hml2 : m ≤ cfg1.LastUpdate
                · simp only [if_pos hml2]
                  refine monoOut_keep cache name env _ _ _ hb2 hrt ?_
                  intro cfg u h
                  injection h with h2
                  injection h2 with h3 h4
                  injection h3 with h5
                  rw [← h5]
                  exact hcl
                · simp only [if_neg hml2]
                  exact verboseGetReload_mono env cache name hb2 hrt
            | none =>
                exact verboseGetReload_mono env cache name hb2 hrt

theorem verboseGet_mono (env : Env) (cache : Cache) (name : String)
    (hb2 : ∀ cfg, cache.configs name = some cfg → cfg.LastUpdate ≤ env.now)
    (hrt : env.now ≤ env.readTime) :
    MonoOut cache name env (verboseGet env id cache name) := by
  cases hctx : env.ctx1 with
  | some e =>
      simp only [verboseGet, hctx]
      exact monoOut_keep cache name env _ _ _ hb2 hrt (fun cfg u h => by simp at h)
  | none =>
      cases hc : cache.configs name with
      | some cfg =>
          by_cases hfresh : env.now - cfg.LastUpdate < cache.syncTimeout
          · simp only [verboseGet, hctx, hc, if_pos hfresh]
            refine monoOut_keep cache name env _ _ _ hb2 hrt ?_
            intro cfg2 u h
            injection h with h2
            injection h2 with h3 h4
            injection h3 with h5
            rw [← h5]
            exact hc
          · simp only [verboseGet, hctx, hc, if_neg hfresh]
            refine verboseGetSlow_mono env cache name (some cfg) cfg.LastUpdate hb2 hrt ?_
            intro cfg2 h
            injection h with h2
            rw [← h2]
            exact hc
      | none =>
          simp only [verboseGet, hctx, hc]
          exact verboseGetSlow_mono env cache name none 0 hb2 hrt
            (fun cfg2 h => by cases h)

theorem runGets_mono (name : String) (envs : List Env) :
    ∀ (cache : Cache) (c0 : Int),
      (∀ cfg, cache.configs name = some cfg → cfg.LastUpdate ≤ c0) →
      ClockMono c0 envs →
      List.Pairwise (· ≤ ·) (runGets name cache envs).1 ∧
      (∀ o ∈ (runGets name cache envs).1, ∀ cfg0, cache.configs name = some cfg0 →
        cfg0.LastUpdate ≤ o) := by
  induction envs with
  | nil =>
      intro cache c0 hb hclock
      constructor
      · exact List.Pairwise.nil
      · intro o ho
        simp [runGets] at ho
  | cons env rest ih =>
      intro cache c0 hb hclock
      obtain ⟨hc0, hnr, hcrest⟩ := hclock
      have hb2 : ∀ cfg, cache.configs name = some cfg → cfg.LastUpdate ≤ env.now :=
        fun cfg h => le_trans (hb cfg h) hc0
      obtain ⟨hF1, hF2, hF3⟩ := verboseGet_mono env cache name hb2 hnr
      obtain ⟨ihP, ihD⟩ :=
        ih { cache with configs := (verboseGet env id cache name).configs } env.readTime
          (fun cfg h => hF1 cfg h) hcrest
      cases hres : (verboseGet env id cache name).result with
      | error e =>
          have hstep : runGets name cache (env :: rest) =
              runGets name { cache with configs := (verboseGet env id cache name).configs }
                rest := by
            simp only [runGets, hres]
          rw [hstep]
          refine ⟨ihP, ?_⟩
          intro o ho cfg0 h0
          obtain ⟨cfg1, hs1, hle1⟩ := hF3 cfg0 h0
          exact le_trans hle1 (ihD o ho cfg1 hs1)
      | ok pair =>
          obtain ⟨optcfg, u⟩ := pair
          cases optcfg with
          | none =>
              have hstep : runGets name cache (env :: rest) =
                  runGets name
                    { cache with configs := (verboseGet env id cache name).configs } rest := by
                simp only [runGets, hres]
              rw [hstep]
              refine ⟨ihP, ?_⟩
              intro o ho cfg0 h0
              obtain ⟨cfg1, hs1, hle1⟩ := hF3 cfg0 h0
              exact le_trans hle1 (ihD o ho cfg1 hs1)
          | some cfg =>
              have hstep : runGets name cache (env :: rest) =
                  (cfg.LastUpdate ::
                    (runGets name
                      { cache with configs := (verboseGet env id cache name).configs } rest).1,
                   (runGets name
                      { cache with configs := (verboseGet env id cache name).configs } rest).2) := by
                simp only [runGets, hres]
              obtain ⟨hstore, hdom⟩ := hF2 cfg u hres
              rw [hstep]
              constructor
              · refine List.Pairwise.cons ?_ ihP
                intro o ho
                exact ihD o ho cfg hstore
              · intro o ho cfg0 h0
                have ho2 : o = cfg.LastUpdate ∨
                    o ∈ (runGets name
                      { cache with configs := (verboseGet env id cache name).configs } rest).1 :=
                  List.mem_cons.mp ho
                cases ho2 with
                | inl hhead =>
                    rw [hhead]
                    exact hdom cfg0 h0
                | inr htail =>
                    obtain ⟨cfg1, hs1, hle1⟩ := hF3 cfg0 h0
                    exact le_trans hle1 (ihD o htail cfg1 hs1)

/-- Claim C8 (freshness monotonicity): over any sequence of `verboseGet`
calls for one name, starting from a cache whose entry for the name (if any)
is no newer than the initial clock, with non-decreasing clock readings (and
non-decreasing modification times reported by the file system, as the claim
assumes), the sequence of `LastUpdate` values of the entries the successful
calls return is non-decreasing: no call ever observes an entry older than
one observed before. -/
theorem claim_C8 (cache : Cache) (name : String) (c0 : Int) (envs : List Env)
    (hb : ∀ cfg, cache.configs name = some cfg → cfg.LastUpdate ≤ c0)
    (hclock : ClockMono c0 envs)
    (hmt : List.Pairwise (· ≤ ·) (statMtimes (getPath cache.directory name) envs)) :
    List.Pairwise (· ≤ ·) (runGets name cache envs).1 :=
  (runGets_mono name envs cache c0 hb hclock).1

def cacheC8 : Cache := { directory := "w", configs := fun _ => none, syncTimeout := 60 }

def envC8a : Env :=
  { ctx1 := none, ctx2 := none, now := 10, readTime := 11,
    stat := fun _ => .ok 5, read := fun _ => .ok [1] }

def envC8b : Env :=
  { ctx1 := none, ctx2 := none, now := 12, readTime := 13,
    stat := fun _ => .ok 5, read := fun _ => .ok [2] }

theorem claim_C8_witness :
    List.Pairwise (· ≤ ·) (runGets "a" cacheC8 [envC8a, envC8b]).1 :=
  claim_C8 cacheC8 "a" 0 [envC8a, envC8b]
    (by
      intro cfg h
      simp [cacheC8] at h)
    ⟨by decide, by decide, by decide, by decide, trivial⟩
    (by decide)
